import Mathlib

/-!
Verification of the batch adapter-trimming orchestrator
(`encode_dcc_trim_adapter.py`) against its specification.

The embedding models the program's pure data flow directly:
* Python strings are Lean `String`s; the error rate is kept in its textual
  form (it is only ever interpolated into a command string).
* External effects (the adapter detector, the shell command runner, the
  hard-link call, reading a TSV file, probing the filesystem) are oracle
  parameters of the model.
* Python exceptions are `Except String`.
* Python's dynamic typing of `args.adapters` (which can remain a flat list
  of strings on one code path) is captured by the `Row` sum type.
-/

namespace TrimAdapter

/-! ## Substring occurrence (used to state that a command "includes" a flag) -/

/-- `needleStartsAt needle hay`: `hay` begins with `needle`. -/
def needleStartsAt : List Char → List Char → Bool
  | [], _ => true
  | _ :: _, [] => false
  | a :: as, b :: bs => a == b && needleStartsAt as bs

/-! ## Python string/path helpers

All helpers are structurally recursive over the character list (the
library's `splitOn`, `endsWith`, `dropRight` are observationally the same
but compile through well-founded recursion, which concrete evaluation
inside proofs cannot unfold). -/

/-- `strEndsWith s suf`: Python `s.endswith(suf)`. -/
def strEndsWith (s suf : String) : Bool :=
  needleStartsAt suf.data.reverse s.data.reverse

/-- `strStartsWith s p`: Python `s.startswith(p)`. -/
def strStartsWith (s p : String) : Bool :=
  needleStartsAt p.data s.data

/-- Remove the last `n` characters. -/
def strDropRight (s : String) (n : Nat) : String :=
  String.mk (s.data.take (s.data.length - n))

/-- Characters after the last `/` of a path. -/
def afterLastSlash (cs : List Char) : List Char :=
  cs.foldl (fun acc c => if c = '/' then [] else acc ++ [c]) []

/-- Python `os.path.basename`: the part of a path after the last slash. -/
def basename (p : String) : String :=
  String.mk (afterLastSlash p.data)

/-- Python `os.path.join` restricted to two components, as used here. -/
def pathJoin (d b : String) : String :=
  if strStartsWith b "/" then b
  else if d = "" then b
  else if strEndsWith d "/" then d ++ b
  else d ++ "/" ++ b

/-- Modelled from the spec: `strip_ext_fastq` lives in `encode_dcc_common`,
which is not part of the sources; the spec only says the trimmed output is
named from the input's `basename_without_fastq_ext`.  We strip one trailing
fastq extension (`.fastq.gz` or `.fq.gz`) when present. -/
def strip_ext_fastq (f : String) : String :=
  if strEndsWith f ".fastq.gz" then strDropRight f 9
  else if strEndsWith f ".fq.gz" then strDropRight f 6
  else f

/-- Python `str` applied to the detector's return value: a real adapter
string is unchanged, the `None` sentinel stringifies to `"None"`. -/
def pyStr : Option String → String
  | none => "None"
  | some s => s

/-- `hasSubList needle hay`: `needle` occurs contiguously inside `hay`. -/
def hasSubList (needle : List Char) : List Char → Bool
  | [] => needleStartsAt needle []
  | b :: bs => needleStartsAt needle (b :: bs) || hasSubList needle bs

/-- `strOccurs hay needle`: `needle` occurs contiguously inside `hay`. -/
def strOccurs (hay needle : String) : Bool :=
  hasSubList needle.data hay.data

theorem needleStartsAt_append (as bs : List Char) :
    needleStartsAt as (as ++ bs) = true := by
  induction as with
  | nil => rfl
  | cons a as ih => simp [needleStartsAt, ih]

theorem hasSubList_append_left (pre needle hay : List Char)
    (h : hasSubList needle hay = true) :
    hasSubList needle (pre ++ hay) = true := by
  induction pre with
  | nil => simpa using h
  | cons c cs ih =>
    simp only [List.cons_append, hasSubList, Bool.or_eq_true]
    exact Or.inr ih

theorem hasSubList_here (needle rest : List Char) :
    hasSubList needle (needle ++ rest) = true := by
  cases needle with
  | nil => cases rest with
    | nil => rfl
    | cons b bs => simp [hasSubList, needleStartsAt]
  | cons a as =>
    simp only [List.cons_append, hasSubList]
    have := needleStartsAt_append (a :: as) rest
    simp only [List.cons_append] at this
    simp [this]

/-- A needle occurs in any string of the form `s ++ needle ++ t`. -/
theorem strOccurs_of_surround (s needle t : String) :
    strOccurs (s ++ needle ++ t) needle = true := by
  have h1 : (s ++ needle ++ t).data = s.data ++ (needle.data ++ t.data) := by
    simp [String.data_append]
  unfold strOccurs
  rw [h1]
  exact hasSubList_append_left s.data needle.data (needle.data ++ t.data)
    (hasSubList_here needle.data t.data)

/-! ## Trim tasks -/

/-- One externally visible action a trim task performs: running a shell
command (`run_shell_cmd cmd`) or creating a hard link (`os.link src dst`). -/
inductive TrimAction
  | cmd (c : String)
  | link (src dst : String)
deriving DecidableEq, Repr

/-- `trim_adapter_se` of the source: returns the actions performed and the
output path handed back to the orchestrator. -/
def trim_adapter_se (fastq adapter : String) (min_trim_len : Int)
    (err_rate out_dir : String) : List TrimAction × String :=
  if adapter ≠ "" then
    let prefixPart := pathJoin out_dir (basename (strip_ext_fastq fastq))
    let trimmed := prefixPart ++ ".trim.fastq.gz"
    let c := "cutadapt " ++
      (if min_trim_len > 0 then "-m " ++ toString min_trim_len else "") ++
      " -e " ++ err_rate ++ " -a " ++ adapter ++ " " ++ fastq ++
      " | gzip -nc > " ++ trimmed
    ([TrimAction.cmd c], trimmed)
  else
    let linked := pathJoin out_dir (basename fastq)
    ([TrimAction.link fastq linked], linked)

/-- `trim_adapter_pe` of the source. -/
def trim_adapter_pe (fastq1 fastq2 adapter1 adapter2 : String)
    (min_trim_len : Int) (err_rate out_dir : String) :
    List TrimAction × List String :=
  if adapter1 ≠ "" ∧ adapter2 ≠ "" then
    let prefix1 := pathJoin out_dir (basename (strip_ext_fastq fastq1))
    let prefix2 := pathJoin out_dir (basename (strip_ext_fastq fastq2))
    let trimmed1 := prefix1 ++ ".trim.fastq.gz"
    let trimmed2 := prefix2 ++ ".trim.fastq.gz"
    let c := "cutadapt " ++
      (if min_trim_len > 0 then "-m " ++ toString min_trim_len else "") ++
      " -e " ++ err_rate ++ " -a " ++ adapter1 ++ " -A " ++ adapter2 ++
      " " ++ fastq1 ++ " " ++ fastq2 ++ " -o " ++ trimmed1 ++ " -p " ++ trimmed2
    ([TrimAction.cmd c], [trimmed1, trimmed2])
  else
    let linked1 := pathJoin out_dir (basename fastq1)
    let linked2 := pathJoin out_dir (basename fastq2)
    ([TrimAction.link fastq1 linked1, TrimAction.link fastq2 linked2],
      [linked1, linked2])

/-- One trim-phase task for a group, per batch mode (`main`'s trim loop
body, including the single-end wrapping of the result into a 1-list). -/
def trimGroup (pairedEnd : Bool) (fq ad : List String) (minTrimLen : Int)
    (errRate outDir : String) : List TrimAction × List String :=
  if pairedEnd then
    trim_adapter_pe (fq.getD 0 "") (fq.getD 1 "") (ad.getD 0 "") (ad.getD 1 "")
      minTrimLen errRate outDir
  else
    let r := trim_adapter_se (fq.getD 0 "") (ad.getD 0 "") minTrimLen errRate outDir
    (r.1, [r.2])

/-! ## Worker-pool size -/

/-- `main`'s pool-size computation (`num_process`). -/
def num_process (pairedEnd : Bool) (numFastqs nth : Int) : Int :=
  if pairedEnd then min (2 * numFastqs) nth else min numFastqs nth

/-! ## Argument parsing (`parse_arguments`)

After line 63 of the source, `args.adapters` can be either a proper matrix
row (a Python list of strings) or still a bare string from the flat
`--adapters` list; `Row` captures that dynamic typing, and `Row.pyLen` is
Python's `len` on either form. -/

inductive Row
  | raw (s : String)
  | cells (xs : List String)
deriving DecidableEq, Repr

/-- Python `len` of an adapter row: character count for a bare string,
list length for a proper row. -/
def Row.pyLen : Row → Nat
  | raw s => s.length
  | cells xs => xs.length

/-- Python truthiness of an adapter row as used by `main` via indexing:
`Row.cell r j` is `r[j]` (a one-character string when `r` is a bare
string). -/
def Row.cell : Row → Nat → String
  | raw s, j => String.mk (s.data.drop j |>.take 1)
  | cells xs, j => xs.getD j ""

/-- Lines 52–70 of `parse_arguments`: build the fastq matrix and the
adapter "matrix" from the raw command-line values.  `fileExists` and
`readTsv` are filesystem oracles (`os.path.exists`, `read_tsv`). -/
def parseMatrices (rawFastqs : List String) (rawAdapters : Option (List String))
    (fileExists : String → Bool) (readTsv : String → List (List String)) :
    List (List String) × List Row :=
  let fastqs0 : List (List String) :=
    if strEndsWith (rawFastqs.headD "") ".gz" then rawFastqs.map (fun f => [f])
    else readTsv (rawFastqs.headD "")
  let parsed : List (List String) × List Row :=
    match rawAdapters with
    | none => (fastqs0, [])
    | some ads =>
      if ads.isEmpty then (fastqs0, [])
      else if fileExists (ads.headD "") then
        (fastqs0, (readTsv (ads.headD "")).map Row.cells)
      else
        -- source line 63: `args.fastqs = [[a] for a in args.adapters]`
        -- overwrites the fastq matrix and leaves `args.adapters` flat
        (ads.map (fun a => [a]), ads.map Row.raw)
  let adapters2 : List Row :=
    if parsed.2.isEmpty then
      parsed.1.map (fun r => Row.cells (r.map (fun _ => "")))
    else parsed.2
  (parsed.1, adapters2)

/-- The per-group loop of the shape check (source lines 76–85), reached
only after the outer lengths were found equal. -/
def validateGroups (pairedEnd : Bool) : List (List String) → List Row → Except String Unit
  | [], _ => Except.ok ()
  | fq :: fqs, ads =>
    if pairedEnd ∧ fq.length ≠ 2 then
      Except.error "Need 2 fastqs per replicate for paired end."
    else if ¬ pairedEnd ∧ fq.length ≠ 1 then
      Except.error "Need 1 fastq per replicate for single end."
    else if fq.length ≠ (ads.headD (Row.cells [])).pyLen then
      Except.error "fastqs and adapters dimension mismatch."
    else validateGroups pairedEnd fqs ads.tail

/-- The whole shape check (source lines 72–85). -/
def validateShape (pairedEnd : Bool) (fastqs : List (List String))
    (adapters : List Row) : Except String Unit :=
  if adapters.length ≠ fastqs.length then
    Except.error "fastqs and adapters dimension mismatch."
  else validateGroups pairedEnd fastqs adapters

/-- `parse_arguments`' combined effect on the two matrices: parse, then
validate; a validation failure raises before `main` starts any task. -/
def parseAndValidate (pairedEnd : Bool) (rawFastqs : List String)
    (rawAdapters : Option (List String)) (fileExists : String → Bool)
    (readTsv : String → List (List String)) :
    Except String (List (List String) × List Row) :=
  let p := parseMatrices rawFastqs rawAdapters fileExists readTsv
  (validateShape pairedEnd p.1 p.2).map (fun _ => p)

/-! ## Detection phase (`main`, lines 157–186) -/

/-- The submission condition of the detection loop for one group:
single-end submits when the slot's adapter is empty, paired-end submits
when not both adapters are non-empty (Python `not (adapters[0] and
adapters[1])`). -/
def groupSubmits (pairedEnd autoDetect : Bool) (ad : List String) : Bool :=
  if pairedEnd then
    autoDetect && (ad.getD 0 "" == "" || ad.getD 1 "" == "")
  else
    autoDetect && (ad.getD 0 "" == "")

/-- The files handed to `detect_most_likely_adapter` for a submitting
group: both mates in paired-end mode, the single mate otherwise. -/
def groupFiles (pairedEnd : Bool) (fq : List String) : List String :=
  if pairedEnd then [fq.getD 0 "", fq.getD 1 ""] else [fq.getD 0 ""]

/-- The detection submissions together with the index of the group that
made them (the source keeps only the futures, compacted — see
`detectSubs`). -/
def submitRows (pairedEnd autoDetect : Bool)
    (fastqs adapters : List (List String)) : List (Nat × List String) :=
  (List.range fastqs.length).filterMap (fun i =>
    if groupSubmits pairedEnd autoDetect (adapters.getD i []) then
      some (i, groupFiles pairedEnd (fastqs.getD i []))
    else none)

/-- `ret_vals` as the source builds it: the compacted list of submitted
file rows, group indices forgotten. -/
def detectSubs (pairedEnd autoDetect : Bool)
    (fastqs adapters : List (List String)) : List (List String) :=
  (submitRows pairedEnd autoDetect fastqs adapters).map Prod.snd

/-- Inner write-back loop (`adapters[i][j] = str(rv.get())`), cell by cell
from position `j`. -/
def writeRowFrom : List String → Nat → List (Option String) → List String
  | old, _, [] => old
  | old, j, v :: rest => writeRowFrom (old.set j (pyStr v)) (j + 1) rest

/-- Write one group's detection results over an adapter row. -/
def writeRow (old : List String) (news : List (Option String)) : List String :=
  writeRowFrom old 0 news

/-- Outer write-back loop: row `i` of the compacted result list overwrites
row `i` of the adapter matrix (`for i, ret_vals_ in enumerate(ret_vals)`)
— positional, not the submitting group's index. -/
def applyDetectedFrom : List (List String) → Nat → List (List (Option String)) → List (List String)
  | ad, _, [] => ad
  | ad, i, row :: rest =>
    applyDetectedFrom (ad.set i (writeRow (ad.getD i []) row)) (i + 1) rest

/-- The full write-back of detection results (source lines 181–186). -/
def applyDetected (adapters : List (List String))
    (rvs : List (List (Option String))) : List (List String) :=
  applyDetectedFrom adapters 0 rvs

/-- Collect a list of futures in submission order: the first failing
`.get` re-raises its task's exception (the code holds per-task handles and
reads them by index, so results are keyed by submission, not completion). -/
def collectAll {α β : Type} (f : α → Except String β) :
    List α → Except String (List β)
  | [] => Except.ok []
  | a :: as =>
    match f a with
    | Except.error e => Except.error e
    | Except.ok b =>
      match collectAll f as with
      | Except.error e => Except.error e
      | Except.ok bs => Except.ok (b :: bs)

/-- The detection phase: run the detector on every submitted file (a
failure surfaces at the corresponding `.get`, in submission order) and
write the stringified results back into the adapter matrix. -/
def resolvedAdapters (detect : String → Except String (Option String))
    (pairedEnd autoDetect : Bool) (fastqs adapters : List (List String)) :
    Except String (List (List String)) :=
  match collectAll (collectAll detect) (detectSubs pairedEnd autoDetect fastqs adapters) with
  | Except.error e => Except.error e
  | Except.ok rvs => Except.ok (applyDetected adapters rvs)

/-! ## The orchestrator (`main`, lines 157–228) -/

/-- Perform a trim task's external actions in order, stopping at the first
failure (`run_shell_cmd` or `os.link` raising). -/
def runActions (exec : TrimAction → Except String Unit) :
    List TrimAction → Except String Unit
  | [] => Except.ok ()
  | a :: as =>
    match exec a with
    | Except.error e => Except.error e
    | Except.ok _ => runActions exec as

/-- One trim-phase task: perform the group's actions, then hand back the
group's output paths. -/
def runTrimTask (exec : TrimAction → Except String Unit)
    (g : List TrimAction × List String) : Except String (List String) :=
  match runActions exec g.1 with
  | Except.error e => Except.error e
  | Except.ok _ => Except.ok g.2

/-- `main` after parsing: detection phase, trim phase, then the single
manifest write.  `detect` and `exec` are the external-world oracles; the
returned matrix is exactly what `write_tsv` receives, and an `Except.error`
is an uncaught Python exception (no manifest written). -/
def runMain (detect : String → Except String (Option String))
    (exec : TrimAction → Except String Unit)
    (pairedEnd autoDetect : Bool) (fastqs adapters : List (List String))
    (minTrimLen : Int) (errRate outDir : String) :
    Except String (List (List String)) :=
  match resolvedAdapters detect pairedEnd autoDetect fastqs adapters with
  | Except.error e => Except.error e
  | Except.ok ad2 =>
    collectAll (runTrimTask exec)
      ((List.range fastqs.length).map (fun i =>
        trimGroup pairedEnd (fastqs.getD i []) (ad2.getD i []) minTrimLen errRate outDir))

/-- Python indexing over an adapter row as `main` performs it: a bare
string behaves as its list of one-character strings. -/
def rowToCells : Row → List String
  | Row.raw s => s.data.map (fun ch => String.mk [ch])
  | Row.cells xs => xs

/-- The whole program: `parse_arguments` (parse + shape check) followed by
`main`'s two phases; a parse-time error is raised before any task starts. -/
def runPipeline (detect : String → Except String (Option String))
    (exec : TrimAction → Except String Unit) (pairedEnd autoDetect : Bool)
    (rawFastqs : List String) (rawAdapters : Option (List String))
    (fileExists : String → Bool) (readTsv : String → List (List String))
    (minTrimLen : Int) (errRate outDir : String) :
    Except String (List (List String)) :=
  match parseAndValidate pairedEnd rawFastqs rawAdapters fileExists readTsv with
  | Except.error e => Except.error e
  | Except.ok p =>
    runMain detect exec pairedEnd autoDetect p.1 (p.2.map rowToCells)
      minTrimLen errRate outDir

/-! ## Helper lemmas -/

instance {ε α : Type} [DecidableEq ε] [DecidableEq α] :
    DecidableEq (Except ε α) := fun a b =>
  match a, b with
  | Except.ok x, Except.ok y =>
    if h : x = y then Decidable.isTrue (by rw [h])
    else Decidable.isFalse (fun hc => h (by cases hc; rfl))
  | Except.error e, Except.error f =>
    if h : e = f then Decidable.isTrue (by rw [h])
    else Decidable.isFalse (fun hc => h (by cases hc; rfl))
  | Except.ok _, Except.error _ =>
    Decidable.isFalse (fun hc => Except.noConfusion hc)
  | Except.error _, Except.ok _ =>
    Decidable.isFalse (fun hc => Except.noConfusion hc)

theorem collectAll_ok_length {α β : Type} (f : α → Except String β)
    (l : List α) (out : List β) (h : collectAll f l = Except.ok out) :
    out.length = l.length := by
  induction l generalizing out with
  | nil =>
    simp only [collectAll, Except.ok.injEq] at h
    simp [← h]
  | cons a as ih =>
    simp only [collectAll] at h
    cases hfa : f a with
    | error e => rw [hfa] at h; exact Except.noConfusion h
    | ok b =>
      rw [hfa] at h
      cases hrest : collectAll f as with
      | error e => rw [hrest] at h; exact Except.noConfusion h
      | ok bs =>
        rw [hrest] at h
        cases h
        simp [ih bs hrest]

theorem collectAll_ok_getD {α β : Type} (f : α → Except String β)
    (l : List α) (out : List β) (da : α) (db : β)
    (h : collectAll f l = Except.ok out) :
    ∀ i, i < l.length → f (l.getD i da) = Except.ok (out.getD i db) := by
  induction l generalizing out with
  | nil => intro i hi; simp at hi
  | cons a as ih =>
    simp only [collectAll] at h
    cases hfa : f a with
    | error e => rw [hfa] at h; exact Except.noConfusion h
    | ok b =>
      rw [hfa] at h
      cases hrest : collectAll f as with
      | error e => rw [hrest] at h; exact Except.noConfusion h
      | ok bs =>
        rw [hrest] at h
        cases h
        intro i hi
        cases i with
        | zero => simpa using hfa
        | succ n =>
          simp only [List.getD_cons_succ]
          exact ih bs hrest n (by simpa using hi)

theorem collectAll_ok_of_mem {α β : Type} (f : α → Except String β)
    (l : List α) (out : List β) (h : collectAll f l = Except.ok out)
    (a : α) (ha : a ∈ l) : ∃ b, f a = Except.ok b := by
  induction l generalizing out with
  | nil => cases ha
  | cons x xs ih =>
    simp only [collectAll] at h
    cases hfa : f x with
    | error e => rw [hfa] at h; exact Except.noConfusion h
    | ok b =>
      rw [hfa] at h
      cases hrest : collectAll f xs with
      | error e => rw [hrest] at h; exact Except.noConfusion h
      | ok bs =>
        cases ha with
        | head => exact ⟨b, hfa⟩
        | tail _ hmem => exact ih bs hrest hmem

theorem collectAll_ok_mem_rev {α β : Type} (f : α → Except String β)
    (l : List α) (out : List β) (h : collectAll f l = Except.ok out)
    (b : β) (hb : b ∈ out) : ∃ a, a ∈ l ∧ f a = Except.ok b := by
  induction l generalizing out with
  | nil =>
    simp only [collectAll, Except.ok.injEq] at h
    rw [← h] at hb
    cases hb
  | cons x xs ih =>
    simp only [collectAll] at h
    cases hfa : f x with
    | error e => rw [hfa] at h; exact Except.noConfusion h
    | ok b0 =>
      rw [hfa] at h
      cases hrest : collectAll f xs with
      | error e => rw [hrest] at h; exact Except.noConfusion h
      | ok bs =>
        rw [hrest] at h
        cases h
        cases hb with
        | head => exact ⟨x, List.mem_cons_self x xs, hfa⟩
        | tail _ hmem =>
          obtain ⟨a, hal, hfab⟩ := ih bs hrest hmem
          exact ⟨a, List.mem_cons_of_mem x hal, hfab⟩

theorem collectAll_pure {α β : Type} (g : α → β) (l : List α) :
    collectAll (fun a => Except.ok (g a)) l = Except.ok (l.map g) := by
  induction l with
  | nil => rfl
  | cons a as ih => simp [collectAll, ih]

theorem collectAll_congr {α β : Type} (f g : α → Except String β)
    (l : List α) (h : ∀ a ∈ l, f a = g a) :
    collectAll f l = collectAll g l := by
  induction l with
  | nil => rfl
  | cons a as ih =>
    simp only [collectAll]
    rw [h a (List.mem_cons_self a as), ih (fun x hx => h x (List.mem_cons_of_mem a hx))]

theorem runActions_ok_mem (exec : TrimAction → Except String Unit)
    (acts : List TrimAction) (h : runActions exec acts = Except.ok ())
    (a : TrimAction) (ha : a ∈ acts) : exec a = Except.ok () := by
  induction acts with
  | nil => cases ha
  | cons x xs ih =>
    simp only [runActions] at h
    cases hfa : exec x with
    | error e => rw [hfa] at h; exact Except.noConfusion h
    | ok u =>
      rw [hfa] at h
      cases ha with
      | head => cases u; exact hfa
      | tail _ hmem => exact ih h hmem

theorem getD_set_ne {α : Type} (l : List α) (i t : Nat) (a d : α)
    (hne : i ≠ t) : (l.set i a).getD t d = l.getD t d := by
  simp [List.getD_eq_getElem?_getD, List.getElem?_set_ne hne]

theorem getD_set_self_lt {α : Type} (l : List α) (i : Nat) (a d : α)
    (h : i < l.length) : (l.set i a).getD i d = a := by
  simp [List.getD_eq_getElem?_getD, List.getElem?_set_eq_of_lt a h]

theorem getD_set_self_ge {α : Type} (l : List α) (i : Nat) (a d : α)
    (h : l.length ≤ i) : (l.set i a).getD i d = d := by
  have hn : l[i]? = none := List.getElem?_eq_none h
  simp [List.getD_eq_getElem?_getD, List.getElem?_set_self', hn]

theorem set_nil_eq {α : Type} (j : Nat) (a : α) :
    ([] : List α).set j a = [] := by
  cases j <;> rfl

theorem writeRowFrom_nil_old (j : Nat) (vs : List (Option String)) :
    writeRowFrom [] j vs = [] := by
  induction vs generalizing j with
  | nil => rfl
  | cons v rest ih =>
    simp only [writeRowFrom, set_nil_eq]
    exact ih (j + 1)

theorem getD_nil_of_ge {α : Type} (l : List α) (t : Nat) (d : α)
    (h : l.length ≤ t) : l.getD t d = d := by
  simp [List.getD_eq_getElem?_getD, List.getElem?_eq_none h]

/-- Row `t` after the positional write-back: rows `i ≤ t < i + rvs.length`
are overwritten by the result row at offset `t - i`; all other rows are
untouched. -/
theorem applyDetectedFrom_getD (rvs : List (List (Option String))) :
    ∀ (ad : List (List String)) (i t : Nat),
    (applyDetectedFrom ad i rvs).getD t [] =
      if i ≤ t ∧ t < i + rvs.length then
        writeRow (ad.getD t []) (rvs.getD (t - i) [])
      else ad.getD t [] := by
  induction rvs with
  | nil =>
    intro ad i t
    rw [if_neg (by simp only [List.length_nil]; omega)]
    rfl
  | cons row rest ih =>
    intro ad i t
    simp only [applyDetectedFrom]
    rw [ih]
    by_cases hit : i = t
    · subst hit
      rw [if_neg (by omega), if_pos (by simp only [List.length_cons]; omega)]
      simp only [Nat.sub_self, List.getD_cons_zero]
      by_cases hlen : i < ad.length
      · exact getD_set_self_lt ad i _ [] hlen
      · rw [getD_set_self_ge ad i _ [] (by omega)]
        rw [getD_nil_of_ge ad i [] (by omega)]
        exact (writeRowFrom_nil_old 0 row).symm
    · rw [getD_set_ne ad i t _ [] hit]
      by_cases hcond : i ≤ t ∧ t < i + (row :: rest).length
      · rw [if_pos hcond]
        have h1 : i + 1 ≤ t := by omega
        have h2 : t < i + 1 + rest.length := by
          simp only [List.length_cons] at hcond
          omega
        rw [if_pos ⟨h1, h2⟩]
        have h3 : t - i = (t - (i + 1)) + 1 := by omega
        rw [h3, List.getD_cons_succ]
      · rw [if_neg hcond]
        rw [if_neg (by simp only [List.length_cons] at hcond; omega)]

/-- No group submits a detection task when auto-detect is disabled. -/
theorem detectSubs_auto_false (pe : Bool) (fq ad : List (List String)) :
    detectSubs pe false fq ad = [] := by
  cases pe <;> simp [detectSubs, submitRows, groupSubmits]

/-- Every trim task returns as many output paths as the batch arity. -/
theorem trimGroup_snd_length (pe : Bool) (fq ad : List String)
    (m : Int) (err d : String) :
    (trimGroup pe fq ad m err d).2.length = if pe then 2 else 1 := by
  cases pe with
  | false => simp [trimGroup]
  | true =>
    simp only [trimGroup, if_pos]
    unfold trim_adapter_pe
    split <;> simp

theorem range_map_getD {α : Type} (n : Nat) (g : Nat → α) (i : Nat) (d : α)
    (h : i < n) : ((List.range n).map g).getD i d = g i := by
  rw [List.getD_eq_getElem?_getD, List.getElem?_map, List.getElem?_range h]
  rfl

/-! ## Claims -/

/-- Claim C9: for every batch, the worker-pool size used for both phases
equals `min(requested_threads, num_groups * arity)` with arity 2 in
paired-end mode and 1 in single-end mode, so the pool is never larger than
the total slot count. -/
theorem c9_pool_bound (pairedEnd : Bool) (numGroups nth : Int) :
    num_process pairedEnd numGroups nth
        = min nth (numGroups * (if pairedEnd then 2 else 1)) ∧
    num_process pairedEnd numGroups nth
        ≤ numGroups * (if pairedEnd then 2 else 1) := by
  cases pairedEnd
  · constructor
    · show min numGroups nth = min nth (numGroups * 1)
      omega
    · show min numGroups nth ≤ numGroups * 1
      omega
  · constructor
    · show min (2 * numGroups) nth = min nth (numGroups * 2)
      omega
    · show min (2 * numGroups) nth ≤ numGroups * 2
      omega

/-- Claim C4: a single-end trim call with a non-empty adapter constructs
one external command that carries the minimum-length filter exactly when
the minimum length is positive and always carries the error rate and the
adapter, and returns the path
`{out_dir}/{basename without fastq extension}.trim.fastq.gz`; with an
empty adapter no command is constructed and the returned path keeps the
original basename (hard-link pass-through). -/
theorem c4_se_trim_contract (fastq adapter : String) (m : Int)
    (err out_dir : String) :
    (adapter ≠ "" →
      ∃ c,
        trim_adapter_se fastq adapter m err out_dir =
          ([TrimAction.cmd c],
            pathJoin out_dir (basename (strip_ext_fastq fastq)) ++
              ".trim.fastq.gz") ∧
        c = "cutadapt " ++ (if m > 0 then "-m " ++ toString m else "") ++
            " -e " ++ err ++ " -a " ++ adapter ++ " " ++ fastq ++
            " | gzip -nc > " ++
            (pathJoin out_dir (basename (strip_ext_fastq fastq)) ++
              ".trim.fastq.gz") ∧
        strOccurs c (" -e " ++ err ++ " -a ") = true ∧
        strOccurs c (" -a " ++ adapter ++ " ") = true ∧
        (m > 0 → strOccurs c ("-m " ++ toString m ++ " -e ") = true)) ∧
    (adapter = "" →
      trim_adapter_se fastq adapter m err out_dir =
        ([TrimAction.link fastq (pathJoin out_dir (basename fastq))],
          pathJoin out_dir (basename fastq))) := by
  constructor
  · intro h
    refine ⟨_, by simp [trim_adapter_se, h], rfl, ?_, ?_, ?_⟩
    · have e : "cutadapt " ++ (if m > 0 then "-m " ++ toString m else "") ++
          " -e " ++ err ++ " -a " ++ adapter ++ " " ++ fastq ++
          " | gzip -nc > " ++
          (pathJoin out_dir (basename (strip_ext_fastq fastq)) ++
            ".trim.fastq.gz") =
          ("cutadapt " ++ (if m > 0 then "-m " ++ toString m else "")) ++
          (" -e " ++ err ++ " -a ") ++
          (adapter ++ " " ++ fastq ++ " | gzip -nc > " ++
            (pathJoin out_dir (basename (strip_ext_fastq fastq)) ++
              ".trim.fastq.gz")) := by
        simp [String.append_assoc]
      rw [e]
      exact strOccurs_of_surround _ _ _
    · have e : "cutadapt " ++ (if m > 0 then "-m " ++ toString m else "") ++
          " -e " ++ err ++ " -a " ++ adapter ++ " " ++ fastq ++
          " | gzip -nc > " ++
          (pathJoin out_dir (basename (strip_ext_fastq fastq)) ++
            ".trim.fastq.gz") =
          ("cutadapt " ++ (if m > 0 then "-m " ++ toString m else "") ++
            " -e " ++ err) ++
          (" -a " ++ adapter ++ " ") ++
          (fastq ++ " | gzip -nc > " ++
            (pathJoin out_dir (basename (strip_ext_fastq fastq)) ++
              ".trim.fastq.gz")) := by
        simp [String.append_assoc]
      rw [e]
      exact strOccurs_of_surround _ _ _
    · intro hm
      have e : "cutadapt " ++ (if m > 0 then "-m " ++ toString m else "") ++
          " -e " ++ err ++ " -a " ++ adapter ++ " " ++ fastq ++
          " | gzip -nc > " ++
          (pathJoin out_dir (basename (strip_ext_fastq fastq)) ++
            ".trim.fastq.gz") =
          "cutadapt " ++ ("-m " ++ toString m ++ " -e ") ++
          (err ++ " -a " ++ adapter ++ " " ++ fastq ++ " | gzip -nc > " ++
            (pathJoin out_dir (basename (strip_ext_fastq fastq)) ++
              ".trim.fastq.gz")) := by
        rw [if_pos hm]
        simp [String.append_assoc]
      rw [e]
      exact strOccurs_of_surround _ _ _
  · intro h
    simp [trim_adapter_se, h]

/-- Claim C5: a paired-end trim call invokes the external command (with
both adapters, both input files and both output destinations) if and only
if both adapters are non-empty; with either adapter empty both mates are
passed through as hard links named with their original basenames, and the
returned pair of paths keeps mate order (read 1 first, read 2 second). -/
theorem c5_pe_trim_contract (fastq1 fastq2 adapter1 adapter2 : String)
    (m : Int) (err out_dir : String) :
    (adapter1 ≠ "" ∧ adapter2 ≠ "" →
      ∃ c,
        trim_adapter_pe fastq1 fastq2 adapter1 adapter2 m err out_dir =
          ([TrimAction.cmd c],
            [pathJoin out_dir (basename (strip_ext_fastq fastq1)) ++
               ".trim.fastq.gz",
             pathJoin out_dir (basename (strip_ext_fastq fastq2)) ++
               ".trim.fastq.gz"]) ∧
        c = "cutadapt " ++ (if m > 0 then "-m " ++ toString m else "") ++
            " -e " ++ err ++ " -a " ++ adapter1 ++ " -A " ++ adapter2 ++
            " " ++ fastq1 ++ " " ++ fastq2 ++ " -o " ++
            (pathJoin out_dir (basename (strip_ext_fastq fastq1)) ++
              ".trim.fastq.gz") ++ " -p " ++
            (pathJoin out_dir (basename (strip_ext_fastq fastq2)) ++
              ".trim.fastq.gz") ∧
        strOccurs c (" -a " ++ adapter1 ++ " -A ") = true ∧
        strOccurs c (" -A " ++ adapter2 ++ " ") = true ∧
        strOccurs c (" " ++ fastq1 ++ " ") = true ∧
        strOccurs c (" " ++ fastq2 ++ " -o ") = true ∧
        strOccurs c (" -o " ++
          (pathJoin out_dir (basename (strip_ext_fastq fastq1)) ++
            ".trim.fastq.gz") ++ " -p ") = true) ∧
    (adapter1 = "" ∨ adapter2 = "" →
      trim_adapter_pe fastq1 fastq2 adapter1 adapter2 m err out_dir =
        ([TrimAction.link fastq1 (pathJoin out_dir (basename fastq1)),
          TrimAction.link fastq2 (pathJoin out_dir (basename fastq2))],
          [pathJoin out_dir (basename fastq1),
           pathJoin out_dir (basename fastq2)])) := by
  constructor
  · intro h
    refine ⟨_, by simp [trim_adapter_pe, h.1, h.2], rfl, ?_, ?_, ?_, ?_, ?_⟩
    · have e : "cutadapt " ++ (if m > 0 then "-m " ++ toString m else "") ++
          " -e " ++ err ++ " -a " ++ adapter1 ++ " -A " ++ adapter2 ++
          " " ++ fastq1 ++ " " ++ fastq2 ++ " -o " ++
          (pathJoin out_dir (basename (strip_ext_fastq fastq1)) ++
            ".trim.fastq.gz") ++ " -p " ++
          (pathJoin out_dir (basename (strip_ext_fastq fastq2)) ++
            ".trim.fastq.gz") =
          ("cutadapt " ++ (if m > 0 then "-m " ++ toString m else "") ++
            " -e " ++ err) ++ (" -a " ++ adapter1 ++ " -A ") ++
          (adapter2 ++ " " ++ fastq1 ++ " " ++ fastq2 ++ " -o " ++
            (pathJoin out_dir (basename (strip_ext_fastq fastq1)) ++
              ".trim.fastq.gz") ++ " -p " ++
            (pathJoin out_dir (basename (strip_ext_fastq fastq2)) ++
              ".trim.fastq.gz")) := by
        simp [String.append_assoc]
      rw [e]
      exact strOccurs_of_surround _ _ _
    · have e : "cutadapt " ++ (if m > 0 then "-m " ++ toString m else "") ++
          " -e " ++ err ++ " -a " ++ adapter1 ++ " -A " ++ adapter2 ++
          " " ++ fastq1 ++ " " ++ fastq2 ++ " -o " ++
          (pathJoin out_dir (basename (strip_ext_fastq fastq1)) ++
            ".trim.fastq.gz") ++ " -p " ++
          (pathJoin out_dir (basename (strip_ext_fastq fastq2)) ++
            ".trim.fastq.gz") =
          ("cutadapt " ++ (if m > 0 then "-m " ++ toString m else "") ++
            " -e " ++ err ++ " -a " ++ adapter1) ++
          (" -A " ++ adapter2 ++ " ") ++
          (fastq1 ++ " " ++ fastq2 ++ " -o " ++
            (pathJoin out_dir (basename (strip_ext_fastq fastq1)) ++
              ".trim.fastq.gz") ++ " -p " ++
            (pathJoin out_dir (basename (strip_ext_fastq fastq2)) ++
              ".trim.fastq.gz")) := by
        simp [String.append_assoc]
      rw [e]
      exact strOccurs_of_surround _ _ _
    · have e : "cutadapt " ++ (if m > 0 then "-m " ++ toString m else "") ++
          " -e " ++ err ++ " -a " ++ adapter1 ++ " -A " ++ adapter2 ++
          " " ++ fastq1 ++ " " ++ fastq2 ++ " -o " ++
          (pathJoin out_dir (basename (strip_ext_fastq fastq1)) ++
            ".trim.fastq.gz") ++ " -p " ++
          (pathJoin out_dir (basename (strip_ext_fastq fastq2)) ++
            ".trim.fastq.gz") =
          ("cutadapt " ++ (if m > 0 then "-m " ++ toString m else "") ++
            " -e " ++ err ++ " -a " ++ adapter1 ++ " -A " ++ adapter2) ++
          (" " ++ fastq1 ++ " ") ++
          (fastq2 ++ " -o " ++
            (pathJoin out_dir (basename (strip_ext_fastq fastq1)) ++
              ".trim.fastq.gz") ++ " -p " ++
            (pathJoin out_dir (basename (strip_ext_fastq fastq2)) ++
              ".trim.fastq.gz")) := by
        simp [String.append_assoc]
      rw [e]
      exact strOccurs_of_surround _ _ _
    · have e : "cutadapt " ++ (if m > 0 then "-m " ++ toString m else "") ++
          " -e " ++ err ++ " -a " ++ adapter1 ++ " -A " ++ adapter2 ++
          " " ++ fastq1 ++ " " ++ fastq2 ++ " -o " ++
          (pathJoin out_dir (basename (strip_ext_fastq fastq1)) ++
            ".trim.fastq.gz") ++ " -p " ++
          (pathJoin out_dir (basename (strip_ext_fastq fastq2)) ++
            ".trim.fastq.gz") =
          ("cutadapt " ++ (if m > 0 then "-m " ++ toString m else "") ++
            " -e " ++ err ++ " -a " ++ adapter1 ++ " -A " ++ adapter2 ++
            " " ++ fastq1) ++ (" " ++ fastq2 ++ " -o ") ++
          ((pathJoin out_dir (basename (strip_ext_fastq fastq1)) ++
              ".trim.fastq.gz") ++ " -p " ++
            (pathJoin out_dir (basename (strip_ext_fastq fastq2)) ++
              ".trim.fastq.gz")) := by
        simp [String.append_assoc]
      rw [e]
      exact strOccurs_of_surround _ _ _
    · have e : "cutadapt " ++ (if m > 0 then "-m " ++ toString m else "") ++
          " -e " ++ err ++ " -a " ++ adapter1 ++ " -A " ++ adapter2 ++
          " " ++ fastq1 ++ " " ++ fastq2 ++ " -o " ++
          (pathJoin out_dir (basename (strip_ext_fastq fastq1)) ++
            ".trim.fastq.gz") ++ " -p " ++
          (pathJoin out_dir (basename (strip_ext_fastq fastq2)) ++
            ".trim.fastq.gz") =
          ("cutadapt " ++ (if m > 0 then "-m " ++ toString m else "") ++
            " -e " ++ err ++ " -a " ++ adapter1 ++ " -A " ++ adapter2 ++
            " " ++ fastq1 ++ " " ++ fastq2) ++
          (" -o " ++
            (pathJoin out_dir (basename (strip_ext_fastq fastq1)) ++
              ".trim.fastq.gz") ++ " -p ") ++
          (pathJoin out_dir (basename (strip_ext_fastq fastq2)) ++
            ".trim.fastq.gz") := by
        simp [String.append_assoc]
      rw [e]
      exact strOccurs_of_surround _ _ _
  · intro h
    have hcond : ¬ (adapter1 ≠ "" ∧ adapter2 ≠ "") := by
      rcases h with h | h <;> simp [h]
    simp [trim_adapter_pe, hcond]

/-- Claim C1 counterexample: a paired-end group whose first adapter is
explicit (`"AGATC"`) and whose second is empty, under auto-detect.  The
code submits a detection task for BOTH mates — including the slot whose
adapter was supplied explicitly — and the detection write-back overwrites
the explicit adapter, so it does not reach the trim phase unmodified. -/
theorem c1_counterexample :
    ("AGATC" : String) ≠ "" ∧
    detectSubs true true [["r1.fastq.gz", "r2.fastq.gz"]] [["AGATC", ""]]
      = [["r1.fastq.gz", "r2.fastq.gz"]] ∧
    resolvedAdapters (fun _ => Except.ok (some "TTTT")) true true
        [["r1.fastq.gz", "r2.fastq.gz"]] [["AGATC", ""]]
      = Except.ok [["TTTT", "TTTT"]] ∧
    (("TTTT" : String) ≠ "AGATC") :=
  ⟨by decide, rfl, rfl, by decide⟩

/-- Claim C2 evaluation at the failing input: with one fastq
`r1.fastq.gz` and the inline adapter list `["A"]` (no such file exists),
line 63 of the source overwrites the fastq matrix with the adapter
singletons and leaves `args.adapters` as the flat token list, instead of
turning the tokens into adapter-matrix rows. -/
theorem c2_inline_adapters_eval :
    parseMatrices ["r1.fastq.gz"] (some ["A"]) (fun _ => false) (fun _ => [])
      = ([["A"]], [Row.raw "A"]) ∧
    parseMatrices ["r1.fastq.gz"] (some ["A"]) (fun _ => false) (fun _ => [])
      ≠ ([["r1.fastq.gz"]], [Row.cells ["A"]]) :=
  ⟨rfl, by decide⟩

/-- Claim C3 counterexample: a single-end slot with empty adapter whose
detection task returns the `None` sentinel.  The recorded adapter becomes
the string `"None"`, which is non-empty, so the trim task invokes the
external cutadapt command (with adapter literal `None`) instead of taking
the hard-link pass-through branch, and the manifest path carries the
`.trim.fastq.gz` suffix rather than the original basename. -/
theorem c3_counterexample :
    resolvedAdapters (fun _ => Except.ok none) false true
        [["r1.fastq.gz"]] [[""]]
      = Except.ok [["None"]] ∧
    (trim_adapter_se "r1.fastq.gz" "None" 5 "0.1" "out").1
      = [TrimAction.cmd
          "cutadapt -m 5 -e 0.1 -a None r1.fastq.gz | gzip -nc > out/r1.trim.fastq.gz"] ∧
    runMain (fun _ => Except.ok none) (fun _ => Except.ok ()) false true
        [["r1.fastq.gz"]] [[""]] 5 "0.1" "out"
      = Except.ok [["out/r1.trim.fastq.gz"]] :=
  ⟨rfl, rfl, rfl⟩

/-- Claim C6 counterexample: two paired-end batches whose offending groups
differ (group 2 with arities [2,1], group 1 with arities [1,2]) raise the
very same error value, so the error cannot identify the offending group
index. -/
theorem c6_counterexample :
    validateShape true [["a.fastq.gz", "b.fastq.gz"], ["c.fastq.gz"]]
        [Row.cells ["", ""], Row.cells [""]]
      = Except.error "Need 2 fastqs per replicate for paired end." ∧
    validateShape true [["c.fastq.gz"], ["a.fastq.gz", "b.fastq.gz"]]
        [Row.cells [""], Row.cells ["", ""]]
      = Except.error "Need 2 fastqs per replicate for paired end." :=
  ⟨rfl, rfl⟩

/-- Claim C10 counterexample: inline paired-end fastqs (first argument
ends in `.gz`) with an adapter TSV of a single row fail the OUTER
dimension check, not the per-replicate arity check, so the failure is not
always the `need 2 fastqs per replicate` error. -/
theorem c10_counterexample :
    parseAndValidate true ["a.fastq.gz", "b.fastq.gz"] (some ["adapters.tsv"])
        (fun s => s == "adapters.tsv") (fun _ => [["ACGT"]])
      = Except.error "fastqs and adapters dimension mismatch." ∧
    ("fastqs and adapters dimension mismatch." : String)
      ≠ "Need 2 fastqs per replicate for paired end." :=
  ⟨rfl, by decide⟩

/-- Witness for C4: both branches of the contract at concrete inputs. -/
theorem c4_se_trim_contract_witness :
    (∃ c,
      trim_adapter_se "d/r1.fastq.gz" "AGATC" 5 "0.1" "out" =
        ([TrimAction.cmd c],
          pathJoin "out" (basename (strip_ext_fastq "d/r1.fastq.gz")) ++
            ".trim.fastq.gz") ∧
      c = "cutadapt " ++
          (if (5 : Int) > 0 then "-m " ++ toString (5 : Int) else "") ++
          " -e " ++ "0.1" ++ " -a " ++ "AGATC" ++ " " ++ "d/r1.fastq.gz" ++
          " | gzip -nc > " ++
          (pathJoin "out" (basename (strip_ext_fastq "d/r1.fastq.gz")) ++
            ".trim.fastq.gz") ∧
      strOccurs c (" -e " ++ "0.1" ++ " -a ") = true ∧
      strOccurs c (" -a " ++ "AGATC" ++ " ") = true ∧
      ((5 : Int) > 0 → strOccurs c ("-m " ++ toString (5 : Int) ++ " -e ") = true)) ∧
    trim_adapter_se "r2.fastq.gz" "" 5 "0.1" "out" =
      ([TrimAction.link "r2.fastq.gz" (pathJoin "out" (basename "r2.fastq.gz"))],
        pathJoin "out" (basename "r2.fastq.gz")) :=
  ⟨(c4_se_trim_contract "d/r1.fastq.gz" "AGATC" 5 "0.1" "out").1 (by decide),
   (c4_se_trim_contract "r2.fastq.gz" "" 5 "0.1" "out").2 rfl⟩

/-- Witness for C5: both branches of the paired contract at concrete
inputs (one mate's adapter missing in the pass-through case). -/
theorem c5_pe_trim_contract_witness :
    (∃ c,
      trim_adapter_pe "r1.fastq.gz" "r2.fastq.gz" "AAAA" "CCCC" 5 "0.1" "out" =
        ([TrimAction.cmd c],
          [pathJoin "out" (basename (strip_ext_fastq "r1.fastq.gz")) ++
             ".trim.fastq.gz",
           pathJoin "out" (basename (strip_ext_fastq "r2.fastq.gz")) ++
             ".trim.fastq.gz"]) ∧
      c = "cutadapt " ++
          (if (5 : Int) > 0 then "-m " ++ toString (5 : Int) else "") ++
          " -e " ++ "0.1" ++ " -a " ++ "AAAA" ++ " -A " ++ "CCCC" ++
          " " ++ "r1.fastq.gz" ++ " " ++ "r2.fastq.gz" ++ " -o " ++
          (pathJoin "out" (basename (strip_ext_fastq "r1.fastq.gz")) ++
            ".trim.fastq.gz") ++ " -p " ++
          (pathJoin "out" (basename (strip_ext_fastq "r2.fastq.gz")) ++
            ".trim.fastq.gz") ∧
      strOccurs c (" -a " ++ "AAAA" ++ " -A ") = true ∧
      strOccurs c (" -A " ++ "CCCC" ++ " ") = true ∧
      strOccurs c (" " ++ "r1.fastq.gz" ++ " ") = true ∧
      strOccurs c (" " ++ "r2.fastq.gz" ++ " -o ") = true ∧
      strOccurs c (" -o " ++
        (pathJoin "out" (basename (strip_ext_fastq "r1.fastq.gz")) ++
          ".trim.fastq.gz") ++ " -p ") = true) ∧
    trim_adapter_pe "r1.fastq.gz" "r2.fastq.gz" "AAAA" "" 5 "0.1" "out" =
      ([TrimAction.link "r1.fastq.gz" (pathJoin "out" (basename "r1.fastq.gz")),
        TrimAction.link "r2.fastq.gz" (pathJoin "out" (basename "r2.fastq.gz"))],
        [pathJoin "out" (basename "r1.fastq.gz"),
         pathJoin "out" (basename "r2.fastq.gz")]) :=
  ⟨(c5_pe_trim_contract "r1.fastq.gz" "r2.fastq.gz" "AAAA" "CCCC" 5 "0.1" "out").1
      ⟨by decide, by decide⟩,
   (c5_pe_trim_contract "r1.fastq.gz" "r2.fastq.gz" "AAAA" "" 5 "0.1" "out").2
      (Or.inr rfl)⟩

/-- Claim C3 (amended): the detector's none sentinel is recorded as the
string `"None"` (Python `str(None)`), which is non-empty, so a slot whose
adapter is `"None"` at trim time takes the external cutadapt branch — the
command being invoked with the literal adapter `None` — and not the
hard-link pass-through branch. -/
theorem c3_sentinel_not_passthrough (fastq : String) (m : Int)
    (err out_dir : String) :
    pyStr none = "None" ∧
    trim_adapter_se fastq "None" m err out_dir =
      ([TrimAction.cmd
          ("cutadapt " ++ (if m > 0 then "-m " ++ toString m else "") ++
            " -e " ++ err ++ " -a " ++ "None" ++ " " ++ fastq ++
            " | gzip -nc > " ++
            (pathJoin out_dir (basename (strip_ext_fastq fastq)) ++
              ".trim.fastq.gz"))],
        pathJoin out_dir (basename (strip_ext_fastq fastq)) ++
          ".trim.fastq.gz") := by
  refine ⟨rfl, ?_⟩
  simp [trim_adapter_se]

theorem headD_eq_getD_zero (ads : List Row) :
    ads.headD (Row.cells []) = ads.getD 0 (Row.cells []) := by
  cases ads <;> rfl

theorem getD_tail_row (ads : List Row) (i : Nat) :
    ads.tail.getD i (Row.cells []) = ads.getD (i + 1) (Row.cells []) := by
  cases ads <;> simp [List.getD_cons_succ]

/-- The per-group validation loop succeeds exactly when every group has
the arity of the batch mode and matches its adapter row's length. -/
theorem validateGroups_ok_iff (pe : Bool) (fqs : List (List String)) :
    ∀ ads : List Row,
    (validateGroups pe fqs ads = Except.ok () ↔
      ∀ i, i < fqs.length →
        ((fqs.getD i []).length = (if pe then 2 else 1) ∧
         (fqs.getD i []).length = (ads.getD i (Row.cells [])).pyLen)) := by
  induction fqs with
  | nil => intro ads; simp [validateGroups]
  | cons fq fqs ih =>
    intro ads
    simp only [validateGroups]
    by_cases h1 : pe = true ∧ fq.length ≠ 2
    · rw [if_pos h1]
      constructor
      · intro h; exact absurd h (by simp)
      · intro hAll
        have h0 := (hAll 0 (by simp)).1
        simp only [List.getD_cons_zero] at h0
        rw [if_pos h1.1] at h0
        exact absurd h0 h1.2
    · rw [if_neg h1]
      by_cases h2 : ¬(pe = true) ∧ fq.length ≠ 1
      · rw [if_pos h2]
        constructor
        · intro h; exact absurd h (by simp)
        · intro hAll
          have h0 := (hAll 0 (by simp)).1
          simp only [List.getD_cons_zero] at h0
          rw [if_neg h2.1] at h0
          exact absurd h0 h2.2
      · rw [if_neg h2]
        by_cases h3 : fq.length ≠ (ads.headD (Row.cells [])).pyLen
        · rw [if_pos h3]
          constructor
          · intro h; exact absurd h (by simp)
          · intro hAll
            have h0 := (hAll 0 (by simp)).2
            simp only [List.getD_cons_zero] at h0
            rw [← headD_eq_getD_zero] at h0
            exact absurd h0 h3
        · rw [if_neg h3]
          rw [ih ads.tail]
          have hlen0 : fq.length = (if pe then 2 else 1) := by
            by_cases hpe : pe = true
            · rw [if_pos hpe]
              exact not_not.mp (not_and.mp h1 hpe)
            · rw [if_neg hpe]
              exact not_not.mp (not_and.mp h2 hpe)
          have hmatch0 : fq.length = (ads.getD 0 (Row.cells [])).pyLen := by
            rw [← headD_eq_getD_zero]
            exact not_not.mp h3
          constructor
          · intro hAll i hi
            cases i with
            | zero =>
              simp only [List.getD_cons_zero]
              exact ⟨hlen0, hmatch0⟩
            | succ n =>
              simp only [List.getD_cons_succ]
              rw [← getD_tail_row]
              exact hAll n (by simpa using hi)
          · intro hAll n hn
            have := hAll (n + 1) (by simpa using hn)
            simp only [List.getD_cons_succ] at this
            rw [← getD_tail_row] at this
            exact this

/-- Claim C6 (amended): a shape violation fails validation before any
task starts — the pipeline raises the parse-time error and runs neither
phase — with an error whose message names the kind of mismatch but does
not identify the offending group index; the 2-group file matrix with
arities [2,1] under paired-end mode fails with the fixed per-replicate
arity message. -/
theorem c6_amended (pe : Bool) (fq : List (List String)) (ad : List Row) :
    (validateShape pe fq ad = Except.ok () ↔
      (ad.length = fq.length ∧
        ∀ i, i < fq.length →
          ((fq.getD i []).length = (if pe then 2 else 1) ∧
           (fq.getD i []).length = (ad.getD i (Row.cells [])).pyLen))) ∧
    (∀ e detect exec auto rawF rawA fe rt m err d,
      validateShape pe (parseMatrices rawF rawA fe rt).1
          (parseMatrices rawF rawA fe rt).2 = Except.error e →
      runPipeline detect exec pe auto rawF rawA fe rt m err d
        = Except.error e) ∧
    validateShape true [["r1a.fastq.gz", "r1b.fastq.gz"], ["r2.fastq.gz"]]
        [Row.cells ["", ""], Row.cells [""]]
      = Except.error "Need 2 fastqs per replicate for paired end." := by
  refine ⟨?_, ?_, rfl⟩
  · unfold validateShape
    by_cases h : ad.length ≠ fq.length
    · rw [if_pos h]
      constructor
      · intro hc; exact absurd hc (by simp)
      · intro hc; exact absurd hc.1 h
    · rw [if_neg h]
      rw [validateGroups_ok_iff]
      have hl : ad.length = fq.length := not_not.mp h
      constructor
      · intro hAll; exact ⟨hl, hAll⟩
      · intro hc; exact hc.2
  · intro e detect exec auto rawF rawA fe rt m err d hval
    have hpv : parseAndValidate pe rawF rawA fe rt = Except.error e := by
      unfold parseAndValidate
      simp only [hval, Except.map]
    unfold runPipeline
    rw [hpv]

/-- Witness for C6 (amended): a single-end-shaped batch under paired-end
mode is rejected at parse time, and the whole pipeline surfaces exactly
that error (no manifest). -/
theorem c6_amended_witness :
    runPipeline (fun _ => Except.ok none) (fun _ => Except.ok ()) true false
        ["a.fastq.gz"] none (fun _ => false) (fun _ => []) 5 "0.1" "out"
      = Except.error "Need 2 fastqs per replicate for paired end." :=
  (c6_amended true [["a.fastq.gz"]] [Row.cells [""]]).2.1
    "Need 2 fastqs per replicate for paired end."
    (fun _ => Except.ok none) (fun _ => Except.ok ()) false
    ["a.fastq.gz"] none (fun _ => false) (fun _ => []) 5 "0.1" "out" rfl

/-- With an inline fastq list every parsed fastq group is a singleton; in
particular the first group is. -/
theorem parseMatrices_inline_head (f0 : String) (fs : List String)
    (rawAdapters : Option (List String)) (fileExists : String → Bool)
    (readTsv : String → List (List String))
    (h2 : strEndsWith f0 ".gz" = true) :
    ∃ x xs, (parseMatrices (f0 :: fs) rawAdapters fileExists readTsv).1
      = [x] :: xs := by
  unfold parseMatrices
  simp only [List.headD_cons, h2, if_true]
  cases rawAdapters with
  | none => exact ⟨f0, fs.map (fun f => [f]), by simp⟩
  | some ads =>
    by_cases hemp : ads.isEmpty
    · exact ⟨f0, fs.map (fun f => [f]), by simp [hemp]⟩
    · obtain ⟨a, as, rfl⟩ : ∃ a as, ads = a :: as := by
        cases ads with
        | nil => simp at hemp
        | cons a as => exact ⟨a, as, rfl⟩
      by_cases hex : fileExists a
      · exact ⟨f0, fs.map (fun f => [f]), by simp [hemp, hex]⟩
      · exact ⟨a, as.map (fun x => [x]), by simp [hemp, hex]⟩

/-- Claim C10 (amended): in paired-end mode, fastq inputs given as an
inline list (first argument ending in `.gz`) always fail validation,
because inline parsing places each fastq (or, when inline adapters are
also given, each adapter token) in its own singleton group; the failure is
the `need 2 fastqs per replicate` arity error whenever the outer dimension
check passes, and the outer `dimension mismatch` error otherwise — so
paired-end input is only ever accepted via the TSV form. -/
theorem c10_inline_paired_rejected (rawFastqs : List String)
    (rawAdapters : Option (List String)) (fileExists : String → Bool)
    (readTsv : String → List (List String))
    (h1 : rawFastqs ≠ [])
    (h2 : strEndsWith (rawFastqs.headD "") ".gz" = true) :
    parseAndValidate true rawFastqs rawAdapters fileExists readTsv
        = Except.error "Need 2 fastqs per replicate for paired end." ∨
    parseAndValidate true rawFastqs rawAdapters fileExists readTsv
        = Except.error "fastqs and adapters dimension mismatch." := by
  obtain ⟨f0, fs, rfl⟩ : ∃ f0 fs, rawFastqs = f0 :: fs := by
    cases rawFastqs with
    | nil => exact absurd rfl h1
    | cons a as => exact ⟨a, as, rfl⟩
  rw [List.headD_cons] at h2
  obtain ⟨x, xs, hx⟩ :=
    parseMatrices_inline_head f0 fs rawAdapters fileExists readTsv h2
  unfold parseAndValidate validateShape
  dsimp only
  by_cases hlen : (parseMatrices (f0 :: fs) rawAdapters fileExists readTsv).2.length
      ≠ (parseMatrices (f0 :: fs) rawAdapters fileExists readTsv).1.length
  · right
    rw [if_pos hlen]
    rfl
  · left
    rw [if_neg hlen, hx]
    have harity : validateGroups true ([x] :: xs)
        (parseMatrices (f0 :: fs) rawAdapters fileExists readTsv).2
        = Except.error "Need 2 fastqs per replicate for paired end." := by
      unfold validateGroups
      rw [if_pos ⟨rfl, by simp⟩]
    rw [harity]
    rfl

/-- Witness for C10 (amended) at a concrete inline paired-end input. -/
theorem c10_inline_paired_rejected_witness :
    parseAndValidate true ["x.fastq.gz"] none (fun _ => false) (fun _ => [])
        = Except.error "Need 2 fastqs per replicate for paired end." ∨
    parseAndValidate true ["x.fastq.gz"] none (fun _ => false) (fun _ => [])
        = Except.error "fastqs and adapters dimension mismatch." :=
  c10_inline_paired_rejected ["x.fastq.gz"] none (fun _ => false)
    (fun _ => []) (by decide) (by decide)

theorem getD_map_lt {α β : Type} (f : α → β) (l : List α) (t : Nat)
    (h : t < l.length) (da : α) (db : β) :
    (l.map f).getD t db = f (l.getD t da) := by
  rw [List.getD_eq_getElem?_getD, List.getD_eq_getElem?_getD,
      List.getElem?_map, List.getElem?_eq_getElem h]
  rfl

/-- With a pure detector (no failures), the detection phase always
resolves and equals the positional write-back of the mapped results. -/
theorem resolvedAdapters_pure_eq (d : String → Option String)
    (pe auto : Bool) (fq ad : List (List String)) :
    resolvedAdapters (fun f => Except.ok (d f)) pe auto fq ad =
      Except.ok (applyDetected ad
        ((detectSubs pe auto fq ad).map (fun row => row.map d))) := by
  unfold resolvedAdapters
  rw [collectAll_congr (collectAll (fun f => Except.ok (d f)))
      (fun row => Except.ok (row.map d)) _
      (fun row _ => collectAll_pure d row)]
  rw [collectAll_pure (fun row => row.map d)
      (detectSubs pe auto fq ad)]

/-- Claim C1 (amended): detection tasks are submitted — in single-end
mode — exactly for the slots whose adapter is empty while auto-detect is
enabled, and — in paired-end mode — for both mates of exactly those
groups where auto-detect is enabled and at least one of the two adapters
is empty; the detection results are written back positionally into the
leading rows of the adapter matrix (the j-th submitting group's results
overwrite row j), not necessarily into the rows that submitted them; in
particular, with auto-detect disabled nothing is submitted and every
adapter — explicit or empty — reaches the trim phase unmodified. -/
theorem c1_amended (pe auto : Bool) (fq ad : List (List String))
    (d : String → Option String) :
    (∀ i, i < fq.length →
      ((∃ fs, (i, fs) ∈ submitRows pe auto fq ad) ↔
        (auto = true ∧
          (if pe then
            ((ad.getD i []).getD 0 "" = "" ∨ (ad.getD i []).getD 1 "" = "")
          else (ad.getD i []).getD 0 "" = "")))) ∧
    (∀ i fs, (i, fs) ∈ submitRows pe auto fq ad →
      fs = groupFiles pe (fq.getD i [])) ∧
    (∃ A, resolvedAdapters (fun f => Except.ok (d f)) pe auto fq ad
        = Except.ok A ∧
      (∀ t, A.getD t [] =
        if t < (detectSubs pe auto fq ad).length then
          writeRow (ad.getD t [])
            (((detectSubs pe auto fq ad).getD t []).map d)
        else ad.getD t []) ∧
      (auto = false → A = ad)) := by
  refine ⟨?_, ?_, ?_⟩
  · intro i hi
    constructor
    · rintro ⟨fs, hmem⟩
      simp only [submitRows, List.mem_filterMap, List.mem_range] at hmem
      obtain ⟨j, hj, hcond⟩ := hmem
      by_cases hs : groupSubmits pe auto (ad.getD j []) = true
      · rw [if_pos hs] at hcond
        simp only [Option.some.injEq, Prod.mk.injEq] at hcond
        obtain ⟨hji, -⟩ := hcond
        subst hji
        cases pe with
        | false =>
          have hs2 : (auto && ((ad.getD j []).getD 0 "" == "")) = true := hs
          simp only [Bool.and_eq_true, beq_iff_eq] at hs2
          rw [if_neg (by simp)]
          exact hs2
        | true =>
          have hs2 : (auto && ((ad.getD j []).getD 0 "" == "" ||
            (ad.getD j []).getD 1 "" == "")) = true := hs
          simp only [Bool.and_eq_true, Bool.or_eq_true, beq_iff_eq] at hs2
          rw [if_pos rfl]
          exact hs2
      · rw [if_neg hs] at hcond
        exact absurd hcond (by simp)
    · rintro ⟨hauto, hcond⟩
      subst hauto
      refine ⟨groupFiles pe (fq.getD i []), ?_⟩
      simp only [submitRows, List.mem_filterMap, List.mem_range]
      refine ⟨i, hi, ?_⟩
      have hs : groupSubmits pe true (ad.getD i []) = true := by
        cases pe with
        | false =>
          rw [if_neg (by simp)] at hcond
          show (true && ((ad.getD i []).getD 0 "" == "")) = true
          simp only [Bool.true_and, beq_iff_eq]
          exact hcond
        | true =>
          rw [if_pos rfl] at hcond
          show (true && ((ad.getD i []).getD 0 "" == "" ||
            (ad.getD i []).getD 1 "" == "")) = true
          simp only [Bool.true_and, Bool.or_eq_true, beq_iff_eq]
          exact hcond
      rw [if_pos hs]
  · intro i fs hmem
    simp only [submitRows, List.mem_filterMap, List.mem_range] at hmem
    obtain ⟨j, hj, hcond⟩ := hmem
    by_cases hs : groupSubmits pe auto (ad.getD j []) = true
    · rw [if_pos hs] at hcond
      simp only [Option.some.injEq, Prod.mk.injEq] at hcond
      obtain ⟨rfl, rfl⟩ := hcond
      rfl
    · rw [if_neg hs] at hcond
      exact absurd hcond (by simp)
  · refine ⟨_, resolvedAdapters_pure_eq d pe auto fq ad, ?_, ?_⟩
    · intro t
      unfold applyDetected
      rw [applyDetectedFrom_getD]
      by_cases ht : t < (detectSubs pe auto fq ad).length
      · rw [if_pos ⟨Nat.zero_le t, by
            simp only [List.length_map, Nat.zero_add]; exact ht⟩,
          if_pos ht, Nat.sub_zero,
          getD_map_lt (fun row => row.map d) (detectSubs pe auto fq ad)
            t ht []]
      · rw [if_neg (by simp only [List.length_map, Nat.zero_add]; omega),
          if_neg ht]
    · intro hauto
      subst hauto
      rw [detectSubs_auto_false]
      rfl

/-- Witness for C1 (amended): a single-end slot with an empty adapter
under auto-detect does submit, and its detection result is recorded. -/
theorem c1_amended_witness :
    (∃ fs, (0, fs) ∈ submitRows false true [["a.fastq.gz"]] [[""]]) ∧
    (∃ A, resolvedAdapters (fun _ => Except.ok (some "GATC")) false true
        [["a.fastq.gz"]] [[""]] = Except.ok A ∧ A.getD 0 [] = ["GATC"]) := by
  have h := c1_amended false true [["a.fastq.gz"]] [[""]]
    (fun _ => some "GATC")
  constructor
  · exact (h.1 0 (by decide)).mpr ⟨rfl, by decide⟩
  · obtain ⟨A, hA, hT, _⟩ := h.2.2
    refine ⟨A, hA, ?_⟩
    have ht := hT 0
    rw [if_pos (by decide)] at ht
    rw [ht]
    decide

/-- Claim C7: whenever a batch run completes with a manifest, the
manifest has exactly one row per input group, every row has exactly the
batch arity many columns (2 paired-end, 1 single-end), and row i is
precisely group i's trim result — original group order with slot order
preserved, since results are collected by submission index and not by
completion order. -/
theorem c7_manifest_shape (detect : String → Except String (Option String))
    (exec : TrimAction → Except String Unit) (pe auto : Bool)
    (fq ad : List (List String)) (m : Int) (err d : String)
    (manifest : List (List String))
    (h : runMain detect exec pe auto fq ad m err d = Except.ok manifest) :
    manifest.length = fq.length ∧
    (∀ row ∈ manifest, row.length = if pe then 2 else 1) ∧
    (∃ ad2, resolvedAdapters detect pe auto fq ad = Except.ok ad2 ∧
      ∀ i, i < fq.length →
        manifest.getD i [] =
          (trimGroup pe (fq.getD i []) (ad2.getD i []) m err d).2) := by
  unfold runMain at h
  cases hra : resolvedAdapters detect pe auto fq ad with
  | error e => rw [hra] at h; exact Except.noConfusion h
  | ok ad2 =>
    rw [hra] at h
    have hlen := collectAll_ok_length _ _ _ h
    rw [List.length_map, List.length_range] at hlen
    refine ⟨hlen, ?_, ad2, rfl, ?_⟩
    · intro row hrow
      obtain ⟨g, hg, hfg⟩ := collectAll_ok_mem_rev _ _ _ h row hrow
      unfold runTrimTask at hfg
      cases hact : runActions exec g.1 with
      | error e => rw [hact] at hfg; exact Except.noConfusion hfg
      | ok u =>
        rw [hact] at hfg
        cases hfg
        obtain ⟨i, hi, hgi⟩ := List.mem_map.mp hg
        rw [← hgi]
        exact trimGroup_snd_length pe _ _ m err d
    · intro i hi
      have hD := collectAll_ok_getD (runTrimTask exec) _ _
        (([], []) : List TrimAction × List String) ([] : List String) h i
        (by simp only [List.length_map, List.length_range]; exact hi)
      rw [range_map_getD fq.length _ i _ hi] at hD
      unfold runTrimTask at hD
      cases hact : runActions exec
          (trimGroup pe (fq.getD i []) (ad2.getD i []) m err d).1 with
      | error e => rw [hact] at hD; exact Except.noConfusion hD
      | ok u =>
        rw [hact] at hD
        exact (Except.ok.inj hD).symm

/-- Witness for C7: a concrete 2-group single-end pass-through batch. -/
theorem c7_manifest_shape_witness :
    ([["out/a.fastq.gz"], ["out/b.fastq.gz"]] : List (List String)).length
        = ([["a.fastq.gz"], ["b.fastq.gz"]] : List (List String)).length ∧
    ∀ row ∈ ([["out/a.fastq.gz"], ["out/b.fastq.gz"]] : List (List String)),
      row.length = if false then 2 else 1 := by
  have h := c7_manifest_shape (fun _ => Except.ok none) (fun _ => Except.ok ())
    false false [["a.fastq.gz"], ["b.fastq.gz"]] [[""], [""]] 5 "0.1" "out"
    [["out/a.fastq.gz"], ["out/b.fastq.gz"]] rfl
  exact ⟨h.1, h.2.1⟩

/-- Claim C8: the manifest exists only if every detection task and every
trim-task action succeeded (all-or-nothing: a produced manifest certifies
every external step returned success), and a detection-phase failure is
surfaced as the batch's own failure — no manifest value exists on any
failing run. -/
theorem c8_all_or_nothing (detect : String → Except String (Option String))
    (exec : TrimAction → Except String Unit) (pe auto : Bool)
    (fq ad : List (List String)) (m : Int) (err d : String) :
    (∀ manifest,
      runMain detect exec pe auto fq ad m err d = Except.ok manifest →
      ∃ ad2, resolvedAdapters detect pe auto fq ad = Except.ok ad2 ∧
        (∀ row ∈ detectSubs pe auto fq ad, ∀ f ∈ row,
          ∃ v, detect f = Except.ok v) ∧
        (∀ i, i < fq.length →
          ∀ a ∈ (trimGroup pe (fq.getD i []) (ad2.getD i []) m err d).1,
            exec a = Except.ok ())) ∧
    (∀ e, resolvedAdapters detect pe auto fq ad = Except.error e →
      runMain detect exec pe auto fq ad m err d = Except.error e) := by
  constructor
  · intro manifest h
    unfold runMain at h
    cases hra : resolvedAdapters detect pe auto fq ad with
    | error e => rw [hra] at h; exact Except.noConfusion h
    | ok ad2 =>
      rw [hra] at h
      refine ⟨ad2, rfl, ?_, ?_⟩
      · unfold resolvedAdapters at hra
        cases hca : collectAll (collectAll detect)
            (detectSubs pe auto fq ad) with
        | error e => rw [hca] at hra; exact Except.noConfusion hra
        | ok rvs =>
          intro row hrow f hf
          obtain ⟨r, hfr⟩ := collectAll_ok_of_mem _ _ _ hca row hrow
          exact collectAll_ok_of_mem _ _ _ hfr f hf
      · intro i hi a ha
        have hD := collectAll_ok_getD (runTrimTask exec) _ _
          (([], []) : List TrimAction × List String) ([] : List String) h i
          (by simp only [List.length_map, List.length_range]; exact hi)
        rw [range_map_getD fq.length _ i _ hi] at hD
        unfold runTrimTask at hD
        cases hact : runActions exec
            (trimGroup pe (fq.getD i []) (ad2.getD i []) m err d).1 with
        | error e => rw [hact] at hD; exact Except.noConfusion hD
        | ok u => exact runActions_ok_mem exec _ hact a ha
  · intro e hra
    unfold runMain
    rw [hra]

/-- Witness for C8: the success direction at a concrete completing batch
and the failure direction at a concrete failing detector. -/
theorem c8_all_or_nothing_witness :
    (∃ v, (fun _ => (Except.ok (some "AC") : Except String (Option String)))
        "a.fastq.gz" = Except.ok v) ∧
    runMain (fun f => Except.error ("err " ++ f)) (fun _ => Except.ok ())
        false true [["a.fastq.gz"]] [[""]] 5 "0.1" "out"
      = Except.error "err a.fastq.gz" := by
  constructor
  · obtain ⟨ad2, hra, hdet, htrim⟩ :=
      (c8_all_or_nothing (fun _ => Except.ok (some "AC"))
        (fun _ => Except.ok ()) false true [["a.fastq.gz"]] [[""]]
        5 "0.1" "out").1 [["out/a.trim.fastq.gz"]] rfl
    exact hdet ["a.fastq.gz"] (by decide) "a.fastq.gz" (by decide)
  · exact (c8_all_or_nothing (fun f => Except.error ("err " ++ f))
      (fun _ => Except.ok ()) false true [["a.fastq.gz"]] [[""]]
      5 "0.1" "out").2 "err a.fastq.gz" rfl

end TrimAdapter
